import Mathlib

/-!
Verification of the report-building logic of the Polymarket activity tracker
(`tracker.py`).  Numeric market fields (JSON numbers) are modelled as
rationals; a field that may be absent or null is an `Option ℚ`.  Python's
`x or 0` on a numeric field sends both `None` and `0` to `0`, which is
`Option.getD 0` here.  Python's `round(x, n)` (round-half-to-even) is
modelled exactly by `rndHE`/`round2`/`round1`.
-/

namespace Tracker

/-!
The arithmetic of the embedding is expressed through the kernel-reducible
wrappers `qadd`, `qsub`, `qmul`, `qdiv`, `qabs` below, each proved equal to
the corresponding operation of `ℚ` (`qadd_eq` and friends), so that
concrete runs of the embedded program evaluate by `decide`.
-/

/-- Rational addition, reducibly: the same function as `HAdd.hAdd` on `ℚ`
by `qadd_eq`. -/
def qadd (a b : ℚ) : ℚ := Rat.divInt (a.num * b.den + b.num * a.den) (a.den * b.den)

/-- Rational subtraction, reducibly: the same function as `HSub.hSub` on
`ℚ` by `qsub_eq`. -/
def qsub (a b : ℚ) : ℚ := Rat.divInt (a.num * b.den - b.num * a.den) (a.den * b.den)

/-- Rational multiplication, reducibly: the same function as `HMul.hMul`
on `ℚ` by `qmul_eq`. -/
def qmul (a b : ℚ) : ℚ := Rat.divInt (a.num * b.num) (a.den * b.den)

/-- Rational division, reducibly: the same function as `HDiv.hDiv` on `ℚ`
by `qdiv_eq`. -/
def qdiv (a b : ℚ) : ℚ := Rat.divInt (a.num * b.den) (a.den * b.num)

/-- Python `abs`, reducibly: the same function as `|.|` on `ℚ` by
`qabs_eq`. -/
def qabs (a : ℚ) : ℚ := if a < 0 then -a else a

theorem qadd_eq (a b : ℚ) : qadd a b = a + b := by
  rw [qadd, Rat.divInt_eq_div,
    show a + b = (a.num : ℚ) / (a.den : ℚ) + (b.num : ℚ) / (b.den : ℚ) by
      rw [Rat.num_div_den, Rat.num_div_den]]
  have ha : ((a.den : ℚ)) ≠ 0 := by exact_mod_cast a.den_nz
  have hb : ((b.den : ℚ)) ≠ 0 := by exact_mod_cast b.den_nz
  rw [div_add_div _ _ ha hb]
  push_cast
  ring_nf

theorem qsub_eq (a b : ℚ) : qsub a b = a - b := by
  rw [qsub, Rat.divInt_eq_div,
    show a - b = (a.num : ℚ) / (a.den : ℚ) - (b.num : ℚ) / (b.den : ℚ) by
      rw [Rat.num_div_den, Rat.num_div_den]]
  have ha : ((a.den : ℚ)) ≠ 0 := by exact_mod_cast a.den_nz
  have hb : ((b.den : ℚ)) ≠ 0 := by exact_mod_cast b.den_nz
  rw [div_sub_div _ _ ha hb]
  push_cast
  ring_nf

theorem qmul_eq (a b : ℚ) : qmul a b = a * b := by
  rw [qmul, Rat.divInt_eq_div,
    show a * b = (a.num : ℚ) / (a.den : ℚ) * ((b.num : ℚ) / (b.den : ℚ)) by
      rw [Rat.num_div_den, Rat.num_div_den]]
  rw [div_mul_div_comm]
  push_cast
  ring_nf

theorem qdiv_eq (a b : ℚ) : qdiv a b = a / b := by
  rw [qdiv, Rat.divInt_eq_div,
    show a / b = (a.num : ℚ) / (a.den : ℚ) / ((b.num : ℚ) / (b.den : ℚ)) by
      rw [Rat.num_div_den, Rat.num_div_den]]
  rw [div_div_eq_mul_div, div_mul_eq_mul_div, div_div]
  push_cast
  ring_nf

theorem qabs_eq (a : ℚ) : qabs a = |a| := by
  rw [qabs]
  rcases lt_or_le a 0 with h | h
  · rw [if_pos h, abs_of_neg h]
  · rw [if_neg (not_lt.mpr h), abs_of_nonneg h]

/-- Round-half-to-even of a rational to an integer, as Python's built-in
rounding behaves on exact values. -/
def rndHE (x : ℚ) : ℤ :=
  let f : ℤ := ⌊x⌋
  let r : ℚ := qsub x (f : ℚ)
  if r < mkRat 1 2 then f
  else if mkRat 1 2 < r then f + 1
  else if f % 2 = 0 then f else f + 1

/-- Python `round(x, 2)` on exact values. -/
def round2 (x : ℚ) : ℚ := qdiv (rndHE (qmul x 100) : ℚ) 100

/-- Python `round(x, 1)` on exact values. -/
def round1 (x : ℚ) : ℚ := qdiv (rndHE (qmul x 10) : ℚ) 10

/-- Python `v or 0` for an optional numeric field: `None` and `0` both
become `0`, any other number is kept. -/
def orZero (o : Option ℚ) : ℚ := o.getD 0

/-- Python truthiness of an optional numeric field (`if m.get(field):`):
false exactly when the field is absent, null or zero. -/
def truthyQ (o : Option ℚ) : Bool := decide (orZero o ≠ 0)

/-- `needle` is a leading block of `hay` (character lists). -/
def charsHasPre : List Char → List Char → Bool
  | [], _ => true
  | _ :: _, [] => false
  | a :: as, b :: bs => a == b && charsHasPre as bs

/-- `needle` occurs contiguously somewhere in `hay` (character lists). -/
def charsHasSub (needle : List Char) : List Char → Bool
  | [] => charsHasPre needle []
  | b :: bs => charsHasPre needle (b :: bs) || charsHasSub needle bs

/-- Python `needle in hay` on strings (contiguous occurrence). -/
def strIn (needle hay : String) : Bool := charsHasSub needle.data hay.data

/-- Python `s.lower()`; the questions only use ASCII so per-character
ASCII lowercasing is exact. -/
def lowerStr (s : String) : String := String.mk (s.data.map Char.toLower)

/-- Keyword list of the first classification rule in `classify_market`. -/
def territorialKeywords : List String := ["capture", "enter", "recapture", "take control"]

/-- Keyword list of the second classification rule. -/
def peaceKeywords : List String := ["peace", "ceasefire", "truce", "armistice", "negotiate", "treaty"]

/-- Keyword list of the third classification rule. -/
def politicalKeywords : List String := ["election", "president", "zelensky", "putin", "leader"]

/-- Keyword list of the fourth classification rule. -/
def aidKeywords : List String := ["aid", "weapon", "military assistance", "funding", "billion"]

/-- Keyword list of the fifth classification rule. -/
def diplomaticKeywords : List String := ["nato", "eu", "european union", "alliance"]

/-- Python `any(x in q for x in kws)`. -/
def matchesAny (kws : List String) (q : String) : Bool := kws.any (fun k => strIn k q)

/-- `classify_market` from tracker.py: first matching keyword rule wins,
in the fixed order territorial, peace, political, aid, diplomatic;
default is general. -/
def classify_market (question : String) : String :=
  let q := lowerStr question
  if matchesAny territorialKeywords q then "territorial"
  else if matchesAny peaceKeywords q then "peace"
  else if matchesAny politicalKeywords q then "political"
  else if matchesAny aidKeywords q then "aid"
  else if matchesAny diplomaticKeywords q then "diplomatic"
  else "general"

/-- A market record as consumed by `build_report`.  A `none` field is one
that is absent from (or null in) the upstream JSON object; a missing
string defaults to the empty string as `m.get(k, "")` does.
`outcomePrices` is the parsed price array, `none` when absent or
unparseable; `events` is the list of slugs of the entries of the
`events` array. -/
structure Market where
  slug : String
  question : String
  volumeNum : Option ℚ
  volume24hr : Option ℚ
  lastTradePrice : Option ℚ
  outcomePrices : Option (List ℚ)
  oneHourPriceChange : Option ℚ
  oneDayPriceChange : Option ℚ
  endDate : Option String
  events : List String
deriving DecidableEq

/-- One value of the snapshot's slug-indexed mapping. -/
structure SnapEntry where
  volumeNum : Option ℚ
  volume24hr : Option ℚ
  lastTradePrice : Option ℚ
deriving DecidableEq

/-- A persisted snapshot: `timestamp` is `none` when the loaded JSON has
no timestamp key (in particular the empty dict `{}` returned by
`load_previous_snapshot` on failure); the mapping is an association
list keyed by slug. -/
structure Snapshot where
  timestamp : Option String
  markets : List (String × SnapEntry)
deriving DecidableEq

/-- `get_current_price` from tracker.py: the first outcome price when the
`outcomePrices` array is present, parses and is non-empty, else the
last trade price. -/
def get_current_price (m : Market) : Option ℚ :=
  match m.outcomePrices with
  | some (p :: _) => some p
  | _ => m.lastTradePrice

/-- The projection produced by the local `simplify` helper of
`build_report`. -/
structure SimpleMarket where
  slug : String
  eventSlug : String
  question : String
  volume24hr : ℚ
  volumeNum : ℚ
  currentPrice : Option ℚ
  lastTradePrice : Option ℚ
  endDate : Option String
  market_type : String
deriving DecidableEq

/-- `simplify` from tracker.py: projection of a market record; volumes are
rounded to 2 decimals, the URL slug is the first parent event slug when
non-empty, else the market slug; prices are passed through unchanged. -/
def simplify (m : Market) : SimpleMarket :=
  let parentEventSlug := m.events.headD ""
  { slug := m.slug
    eventSlug := if parentEventSlug = "" then m.slug else parentEventSlug
    question := m.question
    volume24hr := round2 (orZero m.volume24hr)
    volumeNum := round2 (orZero m.volumeNum)
    currentPrice := get_current_price m
    lastTradePrice := m.lastTradePrice
    endDate := m.endDate
    market_type := classify_market m.question }

/-- One insertion step of the stable descending sort: the new element goes
in front of the first element whose key is not larger, so it lands after
every earlier element with a strictly larger or equal position demanded
by stability. -/
def insertDesc {α : Type} (key : α → ℚ) (x : α) : List α → List α
  | [] => [x]
  | y :: ys => if key y ≤ key x then x :: y :: ys else y :: insertDesc key x ys

/-- Python `sorted(l, key=key, reverse=True)`: stable descending sort by a
rational key. -/
def sortDescBy {α : Type} (key : α → ℚ) : List α → List α
  | [] => []
  | x :: xs => insertDesc key x (sortDescBy key xs)

/-- Python `[f(m, i+1) for i, m in enumerate(l)]` starting the counter
at `n`. -/
def attachRanksFrom {α β : Type} (f : α → ℕ → β) : ℕ → List α → List β
  | _, [] => []
  | n, x :: xs => f x n :: attachRanksFrom f (n + 1) xs

/-- Rank attachment as done in the report comprehension: element `i` of
the list (0-based) gets rank `i + 1`. -/
def attachRanks {α β : Type} (f : α → ℕ → β) (l : List α) : List β :=
  attachRanksFrom f 1 l

/-- The filtered-and-sorted list behind `top_volume_24h`: markets with a
truthy `volume24hr`, stably sorted descending by it, first 100. -/
def top24List (markets : List Market) : List Market :=
  (sortDescBy (fun m => orZero m.volume24hr)
    (markets.filter (fun m => truthyQ m.volume24hr))).take 100

/-- The filtered-and-sorted list behind `top_volume_total`. -/
def topTotalList (markets : List Market) : List Market :=
  (sortDescBy (fun m => orZero m.volumeNum)
    (markets.filter (fun m => truthyQ m.volumeNum))).take 100

/-- The `hot` accumulation loop: markets whose total volume exceeds 1000
paired with their rounded heat score, in input order. -/
def hotPre (markets : List Market) : List (Market × ℚ) :=
  markets.filterMap (fun m =>
    let v24 := orZero m.volume24hr
    let vtotal := orZero m.volumeNum
    if vtotal > 1000 then some (m, round2 (qmul (qdiv v24 vtotal) 100)) else none)

/-- The sorted, truncated `hot` list (sorted by the rounded heat score). -/
def hotList (markets : List Market) : List (Market × ℚ) :=
  (sortDescBy (fun p => p.2) (hotPre markets)).take 100

/-- Markets carrying an upstream `oneHourPriceChange` field, in input
order. -/
def movers1hPre (markets : List Market) : List Market :=
  markets.filter (fun m => m.oneHourPriceChange.isSome)

/-- The sorted, truncated 1-hour movers list: by absolute raw change,
first 50. -/
def movers1hList (markets : List Market) : List Market :=
  (sortDescBy (fun m => qabs (orZero m.oneHourPriceChange)) (movers1hPre markets)).take 50

/-- Markets carrying an upstream `oneDayPriceChange` field, in input
order. -/
def movers24hPre (markets : List Market) : List Market :=
  markets.filter (fun m => m.oneDayPriceChange.isSome)

/-- The sorted, truncated 24-hour movers list. -/
def movers24hList (markets : List Market) : List Market :=
  (sortDescBy (fun m => qabs (orZero m.oneDayPriceChange)) (movers24hPre markets)).take 50

/-- The un-rounded volume delta of a market against the previous
snapshot (0 when the slug is absent there). -/
def rawSpikeDelta (prev : Snapshot) (m : Market) : ℚ :=
  match prev.markets.lookup m.slug with
  | some e => qsub (orZero m.volumeNum) (orZero e.volumeNum)
  | none => 0

/-- The `spikes` accumulation loop: markets whose slug is in the previous
snapshot and whose raw delta exceeds 100, paired with the rounded delta,
in input order. -/
def spikesPre (markets : List Market) (prev : Snapshot) : List (Market × ℚ) :=
  markets.filterMap (fun m =>
    match prev.markets.lookup m.slug with
    | some e =>
      let curr := orZero m.volumeNum
      let p := orZero e.volumeNum
      let delta := qsub curr p
      if delta > 100 then some (m, round2 delta) else none
    | none => none)

/-- The sorted, truncated `spikes` list (sorted by the rounded delta that
was stored in the accumulation loop). -/
def spikesList (markets : List Market) (prev : Snapshot) : List (Market × ℚ) :=
  (sortDescBy (fun p => p.2) (spikesPre markets prev)).take 50

/-- An entry of the two volume ranking categories. -/
structure VolEntry where
  base : SimpleMarket
  rank : ℕ
deriving DecidableEq

/-- An entry of the `hottest_markets` category. -/
structure HotEntry where
  base : SimpleMarket
  heat_score : ℚ
  rank : ℕ
deriving DecidableEq

/-- An entry of the two mover categories. -/
structure MoverEntry where
  base : SimpleMarket
  price_change : ℚ
  rank : ℕ
deriving DecidableEq

/-- An entry of the `volume_spikes` category. -/
structure SpikeEntry where
  base : SimpleMarket
  volume_delta : ℚ
  rank : ℕ
deriving DecidableEq

/-- The report record written to the output file. -/
structure Report where
  generated_at : String
  previous_snapshot : String
  total_markets : ℕ
  top_volume_24h : List VolEntry
  top_volume_total : List VolEntry
  hottest_markets : List HotEntry
  top_movers_1h : List MoverEntry
  top_movers_24h : List MoverEntry
  volume_spikes : List SpikeEntry
deriving DecidableEq

/-- Entry builder of the volume categories. -/
def mkVolEntry (m : Market) (i : ℕ) : VolEntry := ⟨simplify m, i⟩

/-- Entry builder of the hottest category: the rounded heat score computed
in the accumulation loop is carried over. -/
def mkHotEntry (p : Market × ℚ) (i : ℕ) : HotEntry := ⟨simplify p.1, p.2, i⟩

/-- Entry builder of the 1-hour movers: point change is the raw field
times 100, rounded to 2 decimals. -/
def mk1hEntry (m : Market) (i : ℕ) : MoverEntry :=
  ⟨simplify m, round2 (qmul (orZero m.oneHourPriceChange) 100), i⟩

/-- Entry builder of the 24-hour movers. -/
def mk24hEntry (m : Market) (i : ℕ) : MoverEntry :=
  ⟨simplify m, round2 (qmul (orZero m.oneDayPriceChange) 100), i⟩

/-- Entry builder of the spikes category: the rounded delta is carried
over as `volume_delta`. -/
def mkSpikeEntry (p : Market × ℚ) (i : ℕ) : SpikeEntry := ⟨simplify p.1, p.2, i⟩

/-- `build_report` from tracker.py, with the ambient time passed in as
`now` (the code reads the wall clock only for `generated_at`). -/
def build_report (markets : List Market) (previous_snapshot : Snapshot) (now : String) : Report :=
  { generated_at := now
    previous_snapshot := previous_snapshot.timestamp.getD "none"
    total_markets := markets.length
    top_volume_24h := attachRanks mkVolEntry (top24List markets)
    top_volume_total := attachRanks mkVolEntry (topTotalList markets)
    hottest_markets := attachRanks mkHotEntry (hotList markets)
    top_movers_1h := attachRanks mk1hEntry (movers1hList markets)
    top_movers_24h := attachRanks mk24hEntry (movers24hList markets)
    volume_spikes := attachRanks mkSpikeEntry (spikesList markets previous_snapshot) }

/-- The snapshot `load_previous_snapshot` yields on failure: the empty
dict, i.e. no timestamp and no markets. -/
def emptySnapshot : Snapshot := ⟨none, []⟩

/-- `load_previous_snapshot` from tracker.py as a function of what could
be read and parsed from disk: the parsed snapshot when that succeeded,
else the empty snapshot.  The Python function swallows every exception
and therefore never raises. -/
def load_previous_snapshot (disk : Option Snapshot) : Snapshot :=
  disk.getD emptySnapshot

/-- Dict insertion: overwrite the value of an existing key in place, else
append the binding at the end. -/
def snapInsert (l : List (String × SnapEntry)) (k : String) (v : SnapEntry) :
    List (String × SnapEntry) :=
  if (l.lookup k).isSome then
    l.map (fun p => if p.1 = k then (k, v) else p)
  else l ++ [(k, v)]

/-- `save_snapshot` from tracker.py: the snapshot derived from the current
markets (one entry per non-empty slug) stamped with the current time.
The writing of the file is the surrounding effect; this is the value
written and returned. -/
def save_snapshot (markets : List Market) (now : String) : Snapshot :=
  ⟨some now,
    markets.foldl
      (fun acc m =>
        if m.slug = "" then acc
        else snapInsert acc m.slug ⟨m.volumeNum, m.volume24hr, m.lastTradePrice⟩)
      []⟩

/-- The write behaviour of `main` after the fetch: with no markets the run
returns before building anything (no report written, no snapshot
saved); otherwise the report and the fresh snapshot are both written. -/
def main_outputs (fetched : List Market) (disk : Option Snapshot) (now : String) :
    Option (Report × Snapshot) :=
  if fetched.isEmpty then none
  else some (build_report fetched (load_previous_snapshot disk) now,
             save_snapshot fetched now)

/-! ### Generic facts about the stable descending sort and rank attachment -/

theorem insertDesc_perm {α : Type} (key : α → ℚ) (x : α) (l : List α) :
    (insertDesc key x l).Perm (x :: l) := by
  induction l with
  | nil => exact List.Perm.refl _
  | cons y ys ih =>
    rw [insertDesc]
    by_cases h : key y ≤ key x
    · rw [if_pos h]
    · rw [if_neg h]
      exact (ih.cons y).trans (List.Perm.swap x y ys)

theorem sortDescBy_perm {α : Type} (key : α → ℚ) (l : List α) :
    (sortDescBy key l).Perm l := by
  induction l with
  | nil => exact List.Perm.refl _
  | cons x xs ih => exact (insertDesc_perm key x (sortDescBy key xs)).trans (ih.cons x)

theorem mem_insertDesc {α : Type} (key : α → ℚ) (x : α) (l : List α) (a : α) :
    a ∈ insertDesc key x l ↔ a = x ∨ a ∈ l := by
  rw [(insertDesc_perm key x l).mem_iff, List.mem_cons]

theorem mem_sortDescBy {α : Type} (key : α → ℚ) (l : List α) (a : α) :
    a ∈ sortDescBy key l ↔ a ∈ l :=
  (sortDescBy_perm key l).mem_iff

theorem insertDesc_pairwise {α : Type} (key : α → ℚ) (x : α) (l : List α)
    (hl : l.Pairwise (fun a b => key b ≤ key a)) :
    (insertDesc key x l).Pairwise (fun a b => key b ≤ key a) := by
  induction l with
  | nil => simp [insertDesc]
  | cons y ys ih =>
    rw [insertDesc]
    rcases List.pairwise_cons.mp hl with ⟨hy, hys⟩
    by_cases h : key y ≤ key x
    · rw [if_pos h]
      refine List.pairwise_cons.mpr ⟨?_, hl⟩
      intro z hz
      rcases List.mem_cons.mp hz with rfl | hz
      · exact h
      · exact le_trans (hy z hz) h
    · rw [if_neg h]
      refine List.pairwise_cons.mpr ⟨?_, ih hys⟩
      intro z hz
      rcases (mem_insertDesc key x ys z).mp hz with rfl | hz
      · exact le_of_lt (lt_of_not_le h)
      · exact hy z hz

theorem sortDescBy_pairwise {α : Type} (key : α → ℚ) (l : List α) :
    (sortDescBy key l).Pairwise (fun a b => key b ≤ key a) := by
  induction l with
  | nil => simp [sortDescBy]
  | cons x xs ih => exact insertDesc_pairwise key x (sortDescBy key xs) ih

theorem filter_insertDesc {α : Type} (key : α → ℚ) (c : ℚ) (x : α) (l : List α) :
    (insertDesc key x l).filter (fun y => decide (key y = c)) =
      if key x = c then x :: l.filter (fun y => decide (key y = c))
      else l.filter (fun y => decide (key y = c)) := by
  induction l with
  | nil =>
    by_cases hx : key x = c
    · simp [insertDesc, hx]
    · simp [insertDesc, hx]
  | cons y ys ih =>
    rw [insertDesc]
    by_cases h : key y ≤ key x
    · rw [if_pos h]
      by_cases hx : key x = c
      · simp [List.filter, hx]
      · simp [List.filter, hx]
    · rw [if_neg h]
      have hlt : key x < key y := lt_of_not_le h
      by_cases hx : key x = c
      · have hy : ¬ key y = c := by
          intro hy
          rw [hx, hy] at hlt
          exact lt_irrefl c hlt
        simp [List.filter_cons, hy, ih, hx]
      · simp [List.filter_cons, ih, hx]

theorem sortDescBy_filter {α : Type} (key : α → ℚ) (c : ℚ) (l : List α) :
    (sortDescBy key l).filter (fun y => decide (key y = c)) =
      l.filter (fun y => decide (key y = c)) := by
  induction l with
  | nil => rfl
  | cons x xs ih =>
    rw [sortDescBy, filter_insertDesc, List.filter_cons, ih]
    by_cases hx : key x = c
    · simp [hx]
    · simp [hx]

theorem sortDescBy_length {α : Type} (key : α → ℚ) (l : List α) :
    (sortDescBy key l).length = l.length :=
  (sortDescBy_perm key l).length_eq

/-- Sortedness of the truncated category lists: along a sorted-then-taken
list the key never increases. -/
theorem takeSorted {α : Type} (key : α → ℚ) (n : ℕ) (l : List α) :
    ((sortDescBy key l).take n).Pairwise (fun a b => key b ≤ key a) :=
  (sortDescBy_pairwise key l).sublist (List.take_sublist n _)

/-- Stability of the truncated category lists: the elements with any fixed
key value appear as an order-preserving selection from the input's
elements with that key value. -/
theorem takeStable {α : Type} (key : α → ℚ) (n : ℕ) (l : List α) (c : ℚ) :
    List.Sublist (((sortDescBy key l).take n).filter (fun y => decide (key y = c)))
      (l.filter (fun y => decide (key y = c))) := by
  rw [← sortDescBy_filter key c l]
  exact (List.take_sublist n _).filter _

theorem mem_of_mem_takeSort {α : Type} {key : α → ℚ} {n : ℕ} {l : List α} {a : α}
    (h : a ∈ (sortDescBy key l).take n) : a ∈ l :=
  (mem_sortDescBy key l a).mp ((List.take_sublist n _).subset h)

theorem mem_takeSort_of_short {α : Type} {key : α → ℚ} {n : ℕ} {l : List α} {a : α}
    (hlen : l.length ≤ n) (h : a ∈ l) : a ∈ (sortDescBy key l).take n := by
  rw [List.take_of_length_le (by rw [sortDescBy_length]; exact hlen)]
  exact (mem_sortDescBy key l a).mpr h

theorem attachRanksFrom_length {α β : Type} (f : α → ℕ → β) (n : ℕ) (l : List α) :
    (attachRanksFrom f n l).length = l.length := by
  induction l generalizing n with
  | nil => rfl
  | cons x xs ih => simp [attachRanksFrom, ih]

theorem attachRanks_length {α β : Type} (f : α → ℕ → β) (l : List α) :
    (attachRanks f l).length = l.length :=
  attachRanksFrom_length f 1 l

theorem map_attachRanksFrom {α β : Type} (f : α → ℕ → β) (g : β → ℕ)
    (hg : ∀ a i, g (f a i) = i) (l : List α) (n : ℕ) :
    (attachRanksFrom f n l).map g = List.range' n l.length := by
  induction l generalizing n with
  | nil => rfl
  | cons x xs ih =>
    show g (f x n) :: (attachRanksFrom f (n + 1) xs).map g = List.range' n (xs.length + 1)
    rw [hg, ih, List.range'_succ]

/-- The rank fields of a rank-attached list are exactly the dense sequence
starting at 1. -/
theorem attachRanks_map_rank {α β : Type} (f : α → ℕ → β) (g : β → ℕ)
    (hg : ∀ a i, g (f a i) = i) (l : List α) :
    (attachRanks f l).map g = List.range' 1 (attachRanks f l).length := by
  rw [attachRanks, map_attachRanksFrom f g hg, attachRanksFrom_length]

theorem mem_attachRanksFrom {α β : Type} (f : α → ℕ → β) (n : ℕ) (l : List α) (b : β)
    (h : b ∈ attachRanksFrom f n l) : ∃ a, a ∈ l ∧ ∃ i, b = f a i := by
  induction l generalizing n with
  | nil => cases h
  | cons x xs ih =>
    rcases List.mem_cons.mp h with rfl | h
    · exact ⟨x, List.mem_cons_self x xs, n, rfl⟩
    · rcases ih (n + 1) h with ⟨a, ha, i, hi⟩
      exact ⟨a, List.mem_cons_of_mem x ha, i, hi⟩

theorem attachRanksFrom_mem_of_mem {α β : Type} (f : α → ℕ → β) (n : ℕ) (l : List α) (a : α)
    (h : a ∈ l) : ∃ i, f a i ∈ attachRanksFrom f n l := by
  induction l generalizing n with
  | nil => cases h
  | cons x xs ih =>
    rcases List.mem_cons.mp h with rfl | h
    · exact ⟨n, List.mem_cons_self _ _⟩
    · rcases ih (n + 1) h with ⟨i, hi⟩
      exact ⟨i, List.mem_cons_of_mem _ hi⟩

/-! ### Membership facts about the category accumulation loops -/

theorem hotPre_mem {markets : List Market} {p : Market × ℚ} (h : p ∈ hotPre markets) :
    p.1 ∈ markets ∧ orZero p.1.volumeNum > 1000 ∧
      p.2 = round2 (qmul (qdiv (orZero p.1.volume24hr) (orZero p.1.volumeNum)) 100) := by
  rcases List.mem_filterMap.mp h with ⟨m, hm, hf⟩
  by_cases hv : orZero m.volumeNum > 1000
  · rw [if_pos hv] at hf
    cases hf
    exact ⟨hm, hv, rfl⟩
  · rw [if_neg hv] at hf
    cases hf

theorem hotPre_mem_of (markets : List Market) (m : Market) (hm : m ∈ markets)
    (hv : orZero m.volumeNum > 1000) :
    (m, round2 (qmul (qdiv (orZero m.volume24hr) (orZero m.volumeNum)) 100)) ∈ hotPre markets :=
  List.mem_filterMap.mpr ⟨m, hm, by rw [if_pos hv]⟩

theorem spikesPre_mem {markets : List Market} {prev : Snapshot} {p : Market × ℚ}
    (h : p ∈ spikesPre markets prev) :
    p.1 ∈ markets ∧ (prev.markets.lookup p.1.slug).isSome ∧
      rawSpikeDelta prev p.1 > 100 ∧ p.2 = round2 (rawSpikeDelta prev p.1) := by
  rcases List.mem_filterMap.mp h with ⟨m, hm, hf⟩
  rcases hlk : prev.markets.lookup m.slug with _ | e
  · rw [hlk] at hf
    cases hf
  · rw [hlk] at hf
    dsimp only at hf
    by_cases hd : qsub (orZero m.volumeNum) (orZero e.volumeNum) > 100
    · rw [if_pos hd] at hf
      cases hf
      refine ⟨hm, by rw [hlk]; rfl, ?_, ?_⟩
      · rw [rawSpikeDelta, hlk]
        exact hd
      · rw [rawSpikeDelta, hlk]
    · rw [if_neg hd] at hf
      cases hf

theorem spikesPre_mem_of (markets : List Market) (prev : Snapshot) (m : Market) (hm : m ∈ markets)
    (hsome : (prev.markets.lookup m.slug).isSome) (hd : rawSpikeDelta prev m > 100) :
    (m, round2 (rawSpikeDelta prev m)) ∈ spikesPre markets prev := by
  rcases hlk : prev.markets.lookup m.slug with _ | e
  · rw [hlk] at hsome
    cases hsome
  · rw [rawSpikeDelta, hlk] at hd
    dsimp only at hd
    refine List.mem_filterMap.mpr ⟨m, hm, ?_⟩
    rw [hlk]
    dsimp only
    rw [if_pos hd, rawSpikeDelta, hlk]

/-! ### Concrete fixtures used by counterexamples and witnesses -/

/-- A market with every optional field absent, as a base for fixtures. -/
def baseMkt : Market := ⟨"", "", none, none, none, none, none, none, none, []⟩

/-- Fixture for the spike-order counterexample of the rankings claim:
current total volume 1100.001, previous 1000, so the raw delta is
100.001 and the rounded delta 100. -/
def mktA1 : Market := { baseMkt with slug := "a", volumeNum := some (mkRat 1100001 1000) }

/-- Second fixture for the same counterexample: raw delta 100.004, also
rounding to 100, listed after `mktA1` in the input. -/
def mktB1 : Market := { baseMkt with slug := "b", volumeNum := some (mkRat 1100004 1000) }

/-- Previous snapshot for the spike-order counterexample: both slugs at
volume 1000. -/
def prevSnap1 : Snapshot :=
  ⟨some "2024-01-01T00:00:00Z",
    [("a", ⟨some 1000, some 0, some 0⟩), ("b", ⟨some 1000, some 0, some 0⟩)]⟩

/-- Fixture for the spikes-sorted-by-raw-delta counterexample: raw delta
200.001 against `prevSnap2`. -/
def mktC2a : Market := { baseMkt with slug := "c", volumeNum := some (mkRat 1200001 1000) }

/-- Second fixture of that counterexample: raw delta 200.004, listed after
`mktC2a` in the input. -/
def mktC2b : Market := { baseMkt with slug := "d", volumeNum := some (mkRat 1200004 1000) }

/-- Previous snapshot for the second spike counterexample. -/
def prevSnap2 : Snapshot :=
  ⟨some "2024-01-02T00:00:00Z",
    [("c", ⟨some 1000, some 0, some 0⟩), ("d", ⟨some 1000, some 0, some 0⟩)]⟩

/-- Fixture for the price-scale counterexample: last trade price 0.55 and
a truthy 24h volume so that it appears in `top_volume_24h`. -/
def mktC4 : Market :=
  { baseMkt with slug := "p", volume24hr := some 500, lastTradePrice := some (mkRat 11 20) }

/-- Fixture for the spike-percentage counterexample: current volume 200
while the previous snapshot records volume 0 under the same slug. -/
def mktC5 : Market := { baseMkt with slug := "e", volumeNum := some 200 }

/-- Previous snapshot for the spike-percentage counterexample. -/
def prevSnap5 : Snapshot := ⟨some "2024-01-03T00:00:00Z", [("e", ⟨some 0, some 0, some 0⟩)]⟩

/-- Fixture of the scenario of the spikes claim: current total volume
1500, previous 1300, delta 200. -/
def mktScA : Market := { baseMkt with slug := "sa", volumeNum := some 1500 }

/-- Fixture of the scenario of the spikes claim: current total volume
1050, previous 1000, delta 50. -/
def mktScB : Market := { baseMkt with slug := "sb", volumeNum := some 1050 }

/-- Fixture of the scenario of the spikes claim: a market absent from the
previous snapshot. -/
def mktScC : Market := { baseMkt with slug := "sc", volumeNum := some 999999 }

/-- Previous snapshot of the spikes scenario: slugs sa and sb present,
sc absent. -/
def prevSnapSc : Snapshot :=
  ⟨some "2024-01-04T00:00:00Z",
    [("sa", ⟨some 1300, some 0, some 0⟩), ("sb", ⟨some 1000, some 0, some 0⟩)]⟩

/-- Fixture for the hottest-markets witness: total volume 2000, 24h volume
500, heat 25. -/
def mktHot : Market :=
  { baseMkt with slug := "h", volumeNum := some 2000, volume24hr := some 500 }

/-- Fixture for the hottest-markets boundary: total volume exactly 1000. -/
def mktHot1000 : Market :=
  { baseMkt with slug := "hb", volumeNum := some 1000, volume24hr := some 900 }

/-- Fixture for the movers witness: a present 1-hour change of exactly 0
and a present daily change of -0.05. -/
def mktMove : Market :=
  { baseMkt with
    slug := "mv"
    oneHourPriceChange := some 0
    oneDayPriceChange := some (mkRat (-1) 20) }

/-! ### Claim theorems -/

/-- C1, counterexample.  With two markets whose raw spike deltas are
100.001 and 100.004 (both rounding to 100.00), the report keeps them in
input order because the code sorts the spikes by the rounded delta, so
the `volume_spikes` category is not ordered non-increasingly by the raw
delta metric stated for it. -/
theorem spikes_not_sorted_by_raw_delta_cex :
    (build_report [mktA1, mktB1] prevSnap1 "t").volume_spikes.map (fun e => e.base.slug)
        = ["a", "b"]
    ∧ mktA1.slug = "a" ∧ mktB1.slug = "b"
    ∧ rawSpikeDelta prevSnap1 mktA1 < rawSpikeDelta prevSnap1 mktB1
    ∧ ¬ (spikesList [mktA1, mktB1] prevSnap1).Pairwise
        (fun x y => rawSpikeDelta prevSnap1 y.1 ≤ rawSpikeDelta prevSnap1 x.1) := by
  decide

/-- C1, amended: in the report every ranking category is ordered
non-increasingly by its sort metric — the raw `volume24hr` and
`volumeNum` for the volume categories, the rounded heat score, the
absolute raw price change for the mover categories, and (amendment) the
ROUNDED volume delta rather than the raw one for `volume_spikes` — with
ties kept in input order (each tie class is an order-preserving
selection from the input's tie class), and the rank fields are exactly
the dense sequence 1..N. -/
theorem report_rankings_sorted_stable_dense (ms : List Market) (prev : Snapshot) (now : String) :
    ((build_report ms prev now).top_volume_24h = attachRanks mkVolEntry (top24List ms)
      ∧ (top24List ms).Pairwise (fun a b => orZero b.volume24hr ≤ orZero a.volume24hr)
      ∧ (∀ c : ℚ, List.Sublist
          ((top24List ms).filter (fun m => decide (orZero m.volume24hr = c)))
          ((ms.filter (fun m => truthyQ m.volume24hr)).filter
            (fun m => decide (orZero m.volume24hr = c))))
      ∧ (build_report ms prev now).top_volume_24h.map VolEntry.rank
          = List.range' 1 (build_report ms prev now).top_volume_24h.length)
    ∧ ((build_report ms prev now).top_volume_total = attachRanks mkVolEntry (topTotalList ms)
      ∧ (topTotalList ms).Pairwise (fun a b => orZero b.volumeNum ≤ orZero a.volumeNum)
      ∧ (∀ c : ℚ, List.Sublist
          ((topTotalList ms).filter (fun m => decide (orZero m.volumeNum = c)))
          ((ms.filter (fun m => truthyQ m.volumeNum)).filter
            (fun m => decide (orZero m.volumeNum = c))))
      ∧ (build_report ms prev now).top_volume_total.map VolEntry.rank
          = List.range' 1 (build_report ms prev now).top_volume_total.length)
    ∧ ((build_report ms prev now).hottest_markets = attachRanks mkHotEntry (hotList ms)
      ∧ (hotList ms).Pairwise (fun a b => b.2 ≤ a.2)
      ∧ (∀ c : ℚ, List.Sublist
          ((hotList ms).filter (fun p => decide (p.2 = c)))
          ((hotPre ms).filter (fun p => decide (p.2 = c))))
      ∧ (build_report ms prev now).hottest_markets.map HotEntry.rank
          = List.range' 1 (build_report ms prev now).hottest_markets.length)
    ∧ ((build_report ms prev now).top_movers_1h = attachRanks mk1hEntry (movers1hList ms)
      ∧ (movers1hList ms).Pairwise (fun a b =>
          qabs (orZero b.oneHourPriceChange) ≤ qabs (orZero a.oneHourPriceChange))
      ∧ (∀ c : ℚ, List.Sublist
          ((movers1hList ms).filter (fun m => decide (qabs (orZero m.oneHourPriceChange) = c)))
          ((movers1hPre ms).filter (fun m => decide (qabs (orZero m.oneHourPriceChange) = c))))
      ∧ (build_report ms prev now).top_movers_1h.map MoverEntry.rank
          = List.range' 1 (build_report ms prev now).top_movers_1h.length)
    ∧ ((build_report ms prev now).top_movers_24h = attachRanks mk24hEntry (movers24hList ms)
      ∧ (movers24hList ms).Pairwise (fun a b =>
          qabs (orZero b.oneDayPriceChange) ≤ qabs (orZero a.oneDayPriceChange))
      ∧ (∀ c : ℚ, List.Sublist
          ((movers24hList ms).filter (fun m => decide (qabs (orZero m.oneDayPriceChange) = c)))
          ((movers24hPre ms).filter (fun m => decide (qabs (orZero m.oneDayPriceChange) = c))))
      ∧ (build_report ms prev now).top_movers_24h.map MoverEntry.rank
          = List.range' 1 (build_report ms prev now).top_movers_24h.length)
    ∧ ((build_report ms prev now).volume_spikes = attachRanks mkSpikeEntry (spikesList ms prev)
      ∧ (spikesList ms prev).Pairwise (fun a b => b.2 ≤ a.2)
      ∧ (∀ c : ℚ, List.Sublist
          ((spikesList ms prev).filter (fun p => decide (p.2 = c)))
          ((spikesPre ms prev).filter (fun p => decide (p.2 = c))))
      ∧ (build_report ms prev now).volume_spikes.map SpikeEntry.rank
          = List.range' 1 (build_report ms prev now).volume_spikes.length) := by
  refine ⟨⟨rfl, ?_, ?_, ?_⟩, ⟨rfl, ?_, ?_, ?_⟩, ⟨rfl, ?_, ?_, ?_⟩,
    ⟨rfl, ?_, ?_, ?_⟩, ⟨rfl, ?_, ?_, ?_⟩, ⟨rfl, ?_, ?_, ?_⟩⟩
  · exact takeSorted _ 100 _
  · exact fun c => takeStable _ 100 _ c
  · exact attachRanks_map_rank mkVolEntry VolEntry.rank (fun a i => rfl) _
  · exact takeSorted _ 100 _
  · exact fun c => takeStable _ 100 _ c
  · exact attachRanks_map_rank mkVolEntry VolEntry.rank (fun a i => rfl) _
  · exact takeSorted _ 100 _
  · exact fun c => takeStable _ 100 _ c
  · exact attachRanks_map_rank mkHotEntry HotEntry.rank (fun a i => rfl) _
  · exact takeSorted _ 50 _
  · exact fun c => takeStable _ 50 _ c
  · exact attachRanks_map_rank mk1hEntry MoverEntry.rank (fun a i => rfl) _
  · exact takeSorted _ 50 _
  · exact fun c => takeStable _ 50 _ c
  · exact attachRanks_map_rank mk24hEntry MoverEntry.rank (fun a i => rfl) _
  · exact takeSorted _ 50 _
  · exact fun c => takeStable _ 50 _ c
  · exact attachRanks_map_rank mkSpikeEntry SpikeEntry.rank (fun a i => rfl) _

/-- C2, counterexample.  Raw deltas 200.001 and 200.004 both round to
200.00, so the code (which sorts by the rounded delta, stably) emits
the spikes in input order, which is strictly increasing in the raw
delta — the claimed descending order by raw delta fails. -/
theorem spikes_raw_delta_order_cex :
    (build_report [mktC2a, mktC2b] prevSnap2 "t").volume_spikes.map (fun e => e.base.slug)
        = ["c", "d"]
    ∧ mktC2a.slug = "c" ∧ mktC2b.slug = "d"
    ∧ rawSpikeDelta prevSnap2 mktC2a < rawSpikeDelta prevSnap2 mktC2b
    ∧ ¬ (spikesList [mktC2a, mktC2b] prevSnap2).Pairwise
        (fun x y => rawSpikeDelta prevSnap2 y.1 ≤ rawSpikeDelta prevSnap2 x.1) := by
  decide

/-- C2, amended: when at most 50 markets qualify, `volume_spikes` contains
exactly the markets whose slug is in both the current list and the
previous snapshot's mapping and whose raw delta (current minus previous
total volume) strictly exceeds 100; each entry carries the delta
rounded to 2 decimals, and the list is sorted descending by that
ROUNDED delta (amendment: rounded, not raw) with ties in input order. -/
theorem volume_spikes_membership (ms : List Market) (prev : Snapshot) (now : String)
    (h : (spikesPre ms prev).length ≤ 50) :
    ((build_report ms prev now).volume_spikes = attachRanks mkSpikeEntry (spikesList ms prev))
    ∧ (∀ m, ((∃ p, p ∈ spikesList ms prev ∧ p.1 = m) ↔
        (m ∈ ms ∧ (prev.markets.lookup m.slug).isSome ∧ rawSpikeDelta prev m > 100)))
    ∧ (∀ p, p ∈ spikesList ms prev → p.2 = round2 (rawSpikeDelta prev p.1))
    ∧ (spikesList ms prev).Pairwise (fun a b => b.2 ≤ a.2) := by
  refine ⟨rfl, ?_, ?_, takeSorted _ 50 _⟩
  · intro m
    constructor
    · rintro ⟨p, hp, rfl⟩
      exact (spikesPre_mem (mem_of_mem_takeSort hp)).imp id
        (fun h2 => ⟨h2.1, h2.2.1⟩)
    · rintro ⟨hm, hsome, hd⟩
      exact ⟨(m, round2 (rawSpikeDelta prev m)),
        mem_takeSort_of_short h (spikesPre_mem_of ms prev m hm hsome hd), rfl⟩
  · intro p hp
    exact (spikesPre_mem (mem_of_mem_takeSort hp)).2.2.2

/-- C2, witness: in the scenario of the claim, the market with current
volume 1500 against previous 1300 (delta 200) is in the spikes list,
the one with 1050 against 1000 (delta 50) is not, and the market absent
from the previous snapshot is not, despite its large volume. -/
theorem volume_spikes_membership_witness :
    ((spikesPre [mktScA, mktScB, mktScC] prevSnapSc).length ≤ 50)
    ∧ (∃ p, p ∈ spikesList [mktScA, mktScB, mktScC] prevSnapSc ∧ p.1 = mktScA)
    ∧ ¬ (∃ p, p ∈ spikesList [mktScA, mktScB, mktScC] prevSnapSc ∧ p.1 = mktScB)
    ∧ ¬ (∃ p, p ∈ spikesList [mktScA, mktScB, mktScC] prevSnapSc ∧ p.1 = mktScC) := by
  have h : (spikesPre [mktScA, mktScB, mktScC] prevSnapSc).length ≤ 50 := by decide
  refine ⟨h, ?_, ?_, ?_⟩
  · exact ((volume_spikes_membership _ _ "t" h).2.1 mktScA).mpr (by decide)
  · intro hx
    exact absurd (((volume_spikes_membership _ _ "t" h).2.1 mktScB).mp hx) (by decide)
  · intro hx
    exact absurd (((volume_spikes_membership _ _ "t" h).2.1 mktScC).mp hx) (by decide)

/-- C3: `hottest_markets` is built from exactly the markets whose total
volume strictly exceeds 1000 (so a market at exactly 1000 is excluded
and the heat denominator is never zero), the heat score is
volume24hr / volumeNum * 100 rounded to 2 decimals, the list is sorted
descending by that score, and when at most 100 markets qualify every
qualifying market appears. -/
theorem hottest_markets_exact (ms : List Market) (prev : Snapshot) (now : String) :
    ((build_report ms prev now).hottest_markets = attachRanks mkHotEntry (hotList ms))
    ∧ (∀ p, p ∈ hotList ms → p.1 ∈ ms ∧ orZero p.1.volumeNum > 1000
        ∧ orZero p.1.volumeNum ≠ 0
        ∧ p.2 = round2 (qmul (qdiv (orZero p.1.volume24hr) (orZero p.1.volumeNum)) 100))
    ∧ ((hotPre ms).length ≤ 100 → ∀ m, m ∈ ms → orZero m.volumeNum > 1000 →
        ∃ p, p ∈ hotList ms ∧ p.1 = m)
    ∧ (∀ m, orZero m.volumeNum = 1000 → ∀ p, p ∈ hotList ms → p.1 ≠ m)
    ∧ (hotList ms).Pairwise (fun a b => b.2 ≤ a.2) := by
  refine ⟨rfl, ?_, ?_, ?_, takeSorted _ 100 _⟩
  · intro p hp
    rcases hotPre_mem (mem_of_mem_takeSort hp) with ⟨hm, hv, hs⟩
    exact ⟨hm, hv, ne_of_gt (lt_trans (by norm_num) hv), hs⟩
  · intro hlen m hm hv
    exact ⟨(m, round2 (qmul (qdiv (orZero m.volume24hr) (orZero m.volumeNum)) 100)),
      mem_takeSort_of_short hlen (hotPre_mem_of ms m hm hv), rfl⟩
  · intro m hv p hp hpm
    rcases hotPre_mem (mem_of_mem_takeSort hp) with ⟨_, hgt, _⟩
    rw [hpm, hv] at hgt
    exact lt_irrefl (1000 : ℚ) hgt

/-- C3, witness: with a market of total volume 2000 and 24h volume 500
(heat 25.00) and a market of total volume exactly 1000, the first is in
the hottest list and the second is not. -/
theorem hottest_markets_exact_witness :
    ((hotPre [mktHot, mktHot1000]).length ≤ 100)
    ∧ (∃ p, p ∈ hotList [mktHot, mktHot1000] ∧ p.1 = mktHot)
    ∧ (∀ p, p ∈ hotList [mktHot, mktHot1000] → p.1 ≠ mktHot1000) := by
  refine ⟨by decide, ?_, ?_⟩
  · exact (hottest_markets_exact [mktHot, mktHot1000] emptySnapshot "t").2.2.1
      (by decide) mktHot (by decide) (by decide)
  · exact (hottest_markets_exact [mktHot, mktHot1000] emptySnapshot "t").2.2.2.1
      mktHot1000 (by decide)

/-- Fixture for the zero-previous-and-current-volume case: current total
volume 0. -/
def mktZero : Market := { baseMkt with slug := "z", volumeNum := some 0 }

/-- Previous snapshot recording volume 0 under the slug of `mktZero`. -/
def prevSnapZ : Snapshot := ⟨some "2024-01-05T00:00:00Z", [("z", ⟨some 0, some 0, some 0⟩)]⟩

/-- C4, counterexample.  A market with last trade price 0.55 is emitted in
`top_volume_24h` with `currentPrice` 0.55 — the raw fraction — whereas
the claimed 0–100 scaling rounded to 1 decimal would be 55.0; the code
never rescales or rounds prices. -/
theorem prices_not_rescaled_cex :
    (build_report [mktC4] emptySnapshot "t").top_volume_24h.map (fun e => e.base.currentPrice)
        = [some (mkRat 11 20)]
    ∧ round1 (qmul (mkRat 11 20) 100) = 55
    ∧ mkRat 11 20 ≠ (55 : ℚ) := by
  decide

/-- C4, amended: the price fields (`currentPrice`, `lastTradePrice`) of
every emitted entry are passed through unchanged on the fractional 0–1
scale (amendment: no times-100 scaling and no 1-decimal rounding is
applied to prices), while the computed metrics are rounded to 2
decimals: volumes in the projection, the heat score, the point changes
(raw change field times 100) and the volume delta. -/
theorem report_prices_passthrough_metrics_rounded (ms : List Market) (prev : Snapshot)
    (now : String) :
    (∀ m : Market, (simplify m).currentPrice = get_current_price m
      ∧ (simplify m).lastTradePrice = m.lastTradePrice
      ∧ (simplify m).volume24hr = round2 (orZero m.volume24hr)
      ∧ (simplify m).volumeNum = round2 (orZero m.volumeNum))
    ∧ (∀ e, e ∈ (build_report ms prev now).top_movers_1h → ∃ m, m ∈ ms
        ∧ e.base = simplify m
        ∧ e.price_change = round2 (qmul (orZero m.oneHourPriceChange) 100))
    ∧ (∀ e, e ∈ (build_report ms prev now).top_movers_24h → ∃ m, m ∈ ms
        ∧ e.base = simplify m
        ∧ e.price_change = round2 (qmul (orZero m.oneDayPriceChange) 100))
    ∧ (∀ e, e ∈ (build_report ms prev now).hottest_markets → ∃ m, m ∈ ms
        ∧ e.base = simplify m
        ∧ e.heat_score = round2 (qmul (qdiv (orZero m.volume24hr) (orZero m.volumeNum)) 100))
    ∧ (∀ e, e ∈ (build_report ms prev now).volume_spikes → ∃ m, m ∈ ms
        ∧ e.base = simplify m ∧ e.volume_delta = round2 (rawSpikeDelta prev m)) := by
  refine ⟨fun m => ⟨rfl, rfl, rfl, rfl⟩, ?_, ?_, ?_, ?_⟩
  · intro e he
    rcases mem_attachRanksFrom _ _ _ _ he with ⟨a, ha, i, rfl⟩
    rcases List.mem_filter.mp (mem_of_mem_takeSort ha) with ⟨ham, _⟩
    exact ⟨a, ham, rfl, rfl⟩
  · intro e he
    rcases mem_attachRanksFrom _ _ _ _ he with ⟨a, ha, i, rfl⟩
    rcases List.mem_filter.mp (mem_of_mem_takeSort ha) with ⟨ham, _⟩
    exact ⟨a, ham, rfl, rfl⟩
  · intro e he
    rcases mem_attachRanksFrom _ _ _ _ he with ⟨a, ha, i, rfl⟩
    rcases hotPre_mem (mem_of_mem_takeSort ha) with ⟨ham, _, hs⟩
    exact ⟨a.1, ham, rfl, hs⟩
  · intro e he
    rcases mem_attachRanksFrom _ _ _ _ he with ⟨a, ha, i, rfl⟩
    rcases spikesPre_mem (mem_of_mem_takeSort ha) with ⟨ham, _, _, hs⟩
    exact ⟨a.1, ham, rfl, hs⟩

/-- C4, witness: the projection of the price fixture keeps its raw price,
and the single 1-hour mover entry of a concrete run carries the rounded
scaled point change of its source market. -/
theorem report_prices_passthrough_metrics_rounded_witness :
    ((simplify mktC4).currentPrice = get_current_price mktC4)
    ∧ (mk1hEntry mktMove 1 ∈ (build_report [mktMove] emptySnapshot "t").top_movers_1h)
    ∧ (∃ m, m ∈ [mktMove] ∧ (mk1hEntry mktMove 1).base = simplify m
        ∧ (mk1hEntry mktMove 1).price_change
            = round2 (qmul (orZero m.oneHourPriceChange) 100)) := by
  refine ⟨(report_prices_passthrough_metrics_rounded [] emptySnapshot "t").1 mktC4 |>.1,
    by decide, ?_⟩
  exact (report_prices_passthrough_metrics_rounded [mktMove] emptySnapshot "t").2.1
    (mk1hEntry mktMove 1) (by decide)

/-- C5, counterexample.  For a market with previous snapshot volume 0 and
current volume 200 the code emits the spike entry with metric 200 (the
absolute delta, rounded); no spike percentage is computed anywhere, so
no value 100 is produced for this nonzero-delta, zero-previous-volume
market. -/
theorem spike_percentage_cex :
    (build_report [mktC5] prevSnap5 "t").volume_spikes.map SpikeEntry.volume_delta = [200]
    ∧ (200 : ℚ) ≠ 100 := by
  decide

/-- C5, amended: the spike computation performs no division at all — each
`volume_spikes` entry carries only the absolute volume delta rounded to
2 decimals (amendment: an absolute delta, never a percentage) — and a
market whose previous and current volumes are both 0 has delta 0 and is
excluded by the strict delta-greater-than-100 gate. -/
theorem spikes_no_percentage (ms : List Market) (prev : Snapshot) (now : String) :
    (∀ e, e ∈ (build_report ms prev now).volume_spikes → ∃ m, m ∈ ms
      ∧ e.base = simplify m ∧ e.volume_delta = round2 (rawSpikeDelta prev m)
      ∧ rawSpikeDelta prev m > 100)
    ∧ (∀ m, m ∈ ms → orZero m.volumeNum = 0 →
        ∀ en, prev.markets.lookup m.slug = some en → orZero en.volumeNum = 0 →
          ¬ ∃ p, p ∈ spikesList ms prev ∧ p.1 = m) := by
  constructor
  · intro e he
    rcases mem_attachRanksFrom _ _ _ _ he with ⟨a, ha, i, rfl⟩
    rcases spikesPre_mem (mem_of_mem_takeSort ha) with ⟨ham, _, hd, hs⟩
    exact ⟨a.1, ham, rfl, hs, hd⟩
  · intro m _ hcur en hlk hprev
    rintro ⟨p, hp, rfl⟩
    rcases spikesPre_mem (mem_of_mem_takeSort hp) with ⟨_, _, hd, _⟩
    rw [rawSpikeDelta, hlk] at hd
    dsimp only at hd
    rw [hcur, hprev] at hd
    have : qsub (0 : ℚ) 0 = 0 := by decide
    rw [this] at hd
    exact absurd hd (by norm_num)

/-- C5, witness: with previous and current volume both 0 the market is not
in the spikes list, and in the 200-versus-0 run the single entry's
metric is the absolute delta 200. -/
theorem spikes_no_percentage_witness :
    (¬ ∃ p, p ∈ spikesList [mktZero] prevSnapZ ∧ p.1 = mktZero)
    ∧ (mkSpikeEntry (mktZero, 0) 1 ∉ (build_report [mktZero] prevSnapZ "t").volume_spikes)
    ∧ (mkSpikeEntry (mktC5, 200) 1 ∈ (build_report [mktC5] prevSnap5 "t").volume_spikes)
    ∧ (∃ m, m ∈ [mktC5] ∧ (mkSpikeEntry (mktC5, 200) 1).base = simplify m
        ∧ (mkSpikeEntry (mktC5, 200) 1).volume_delta = round2 (rawSpikeDelta prevSnap5 m)) := by
  refine ⟨(spikes_no_percentage [mktZero] prevSnapZ "t").2 mktZero (by decide) (by decide)
      ⟨some 0, some 0, some 0⟩ (by decide) (by decide),
    by decide, by decide, ?_⟩
  exact ((spikes_no_percentage [mktC5] prevSnap5 "t").1 (mkSpikeEntry (mktC5, 200) 1)
    (by decide)).imp (fun m h => ⟨h.1, h.2.1, h.2.2.1⟩)

/-- C6: when the fetch yields no markets, `main` returns before writing
anything, so neither the report nor the snapshot file is written and
the previous files are untouched; for any non-empty market list both
the report and the fresh snapshot are written. -/
theorem main_empty_short_circuit (ms : List Market) (disk : Option Snapshot) (now : String) :
    (ms = [] → main_outputs ms disk now = none)
    ∧ (ms ≠ [] → main_outputs ms disk now
        = some (build_report ms (load_previous_snapshot disk) now, save_snapshot ms now)) := by
  cases ms with
  | nil => exact ⟨fun _ => rfl, fun h => absurd rfl h⟩
  | cons x xs => exact ⟨fun h => absurd h (List.cons_ne_nil x xs), fun _ => rfl⟩

/-- C6, witness: the empty fetch writes nothing; a one-market fetch writes
both outputs. -/
theorem main_empty_short_circuit_witness :
    main_outputs [] none "t" = none
    ∧ main_outputs [baseMkt] none "t"
        = some (build_report [baseMkt] (load_previous_snapshot none) "t",
                save_snapshot [baseMkt] "t") :=
  ⟨(main_empty_short_circuit [] none "t").1 rfl,
   (main_empty_short_circuit [baseMkt] none "t").2 (by decide)⟩

/-- C7: loading with no prior state (missing file or unparseable JSON)
never raises — it is the total function returning the empty snapshot,
which has no timestamp and an empty mapping — and any report built from
it shows the sentinel previous timestamp and an empty `volume_spikes`
list. -/
theorem load_failure_empty_snapshot (ms : List Market) (now : String) :
    load_previous_snapshot none = emptySnapshot
    ∧ emptySnapshot.timestamp = none
    ∧ emptySnapshot.markets = []
    ∧ (build_report ms (load_previous_snapshot none) now).previous_snapshot = "none"
    ∧ (build_report ms (load_previous_snapshot none) now).volume_spikes = [] := by
  refine ⟨rfl, rfl, rfl, rfl, ?_⟩
  show attachRanks mkSpikeEntry (spikesList ms emptySnapshot) = []
  have h : spikesPre ms emptySnapshot = [] := by
    rw [spikesPre]
    exact List.filterMap_eq_nil_iff.mpr (fun m _ => rfl)
  rw [spikesList, h]
  rfl

/-- C8: classification is a pure keyword match on the lowercased question
with the fixed rule order territorial, peace, political, aid,
diplomatic; the first matching rule wins and the default is general.
In particular the question Zelensky peace talks matches both the peace
and the political keyword sets and is classified peace. -/
theorem classify_market_rule_order (q : String) :
    (matchesAny territorialKeywords (lowerStr q) = true →
      classify_market q = "territorial")
    ∧ (matchesAny territorialKeywords (lowerStr q) = false →
        matchesAny peaceKeywords (lowerStr q) = true →
        classify_market q = "peace")
    ∧ (matchesAny territorialKeywords (lowerStr q) = false →
        matchesAny peaceKeywords (lowerStr q) = false →
        matchesAny politicalKeywords (lowerStr q) = true →
        classify_market q = "political")
    ∧ (matchesAny territorialKeywords (lowerStr q) = false →
        matchesAny peaceKeywords (lowerStr q) = false →
        matchesAny politicalKeywords (lowerStr q) = false →
        matchesAny aidKeywords (lowerStr q) = true →
        classify_market q = "aid")
    ∧ (matchesAny territorialKeywords (lowerStr q) = false →
        matchesAny peaceKeywords (lowerStr q) = false →
        matchesAny politicalKeywords (lowerStr q) = false →
        matchesAny aidKeywords (lowerStr q) = false →
        matchesAny diplomaticKeywords (lowerStr q) = true →
        classify_market q = "diplomatic")
    ∧ (matchesAny territorialKeywords (lowerStr q) = false →
        matchesAny peaceKeywords (lowerStr q) = false →
        matchesAny politicalKeywords (lowerStr q) = false →
        matchesAny aidKeywords (lowerStr q) = false →
        matchesAny diplomaticKeywords (lowerStr q) = false →
        classify_market q = "general")
    ∧ classify_market "Zelensky peace talks" = "peace"
    ∧ matchesAny peaceKeywords (lowerStr "Zelensky peace talks") = true
    ∧ matchesAny politicalKeywords (lowerStr "Zelensky peace talks") = true := by
  refine ⟨?_, ?_, ?_, ?_, ?_, ?_, by decide, by decide, by decide⟩
  · intro h1
    simp [classify_market, h1]
  · intro h1 h2
    simp [classify_market, h1, h2]
  · intro h1 h2 h3
    simp [classify_market, h1, h2, h3]
  · intro h1 h2 h3 h4
    simp [classify_market, h1, h2, h3, h4]
  · intro h1 h2 h3 h4 h5
    simp [classify_market, h1, h2, h3, h4, h5]
  · intro h1 h2 h3 h4 h5
    simp [classify_market, h1, h2, h3, h4, h5]

/-- C8, witness: the multi-match question resolves to peace because the
peace rule precedes the political rule. -/
theorem classify_market_rule_order_witness :
    matchesAny territorialKeywords (lowerStr "Zelensky peace talks") = false
    ∧ matchesAny peaceKeywords (lowerStr "Zelensky peace talks") = true
    ∧ classify_market "Zelensky peace talks" = "peace" :=
  ⟨by decide, by decide,
    (classify_market_rule_order "Zelensky peace talks").2.1 (by decide) (by decide)⟩

/-- C9: `build_report` is a pure function — two invocations on equal
current markets, equal previous snapshots and an equal now timestamp
produce equal reports.  (The embedding is a total function of its
arguments; the source builds only fresh lists and dicts and never
writes to `markets` or `previous_snapshot`.) -/
theorem build_report_deterministic (ms1 ms2 : List Market) (p1 p2 : Snapshot)
    (t1 t2 : String) (h1 : ms1 = ms2) (h2 : p1 = p2) (h3 : t1 = t2) :
    build_report ms1 p1 t1 = build_report ms2 p2 t2 := by
  rw [h1, h2, h3]

/-- C9, witness: determinism instantiated at a concrete run. -/
theorem build_report_deterministic_witness :
    build_report [baseMkt] emptySnapshot "t" = build_report [baseMkt] emptySnapshot "t" :=
  build_report_deterministic [baseMkt] [baseMkt] emptySnapshot emptySnapshot "t" "t"
    rfl rfl rfl

/-- C10: each mover category is decided solely by presence of the
upstream change field — entries are exactly the markets with the field
present (a present value of 0 qualifies), ranked by descending absolute
raw field value, capped at 50, and the reported point change is the
field times 100 rounded to 2 decimals; `build_report` consults no
price-history series (its only inputs are the market list and the
volume snapshot). -/
theorem movers_from_change_fields (ms : List Market) (prev : Snapshot) (now : String) :
    ((build_report ms prev now).top_movers_1h.length
        = min 50 (ms.filter (fun m => m.oneHourPriceChange.isSome)).length
      ∧ (∀ e, e ∈ (build_report ms prev now).top_movers_1h → ∃ m, m ∈ ms
          ∧ m.oneHourPriceChange.isSome = true ∧ e.base = simplify m
          ∧ e.price_change = round2 (qmul (orZero m.oneHourPriceChange) 100))
      ∧ ((ms.filter (fun m => m.oneHourPriceChange.isSome)).length ≤ 50 →
          ∀ m, m ∈ ms → m.oneHourPriceChange.isSome = true → m ∈ movers1hList ms)
      ∧ (movers1hList ms).Pairwise (fun a b =>
          qabs (orZero b.oneHourPriceChange) ≤ qabs (orZero a.oneHourPriceChange)))
    ∧ ((build_report ms prev now).top_movers_24h.length
        = min 50 (ms.filter (fun m => m.oneDayPriceChange.isSome)).length
      ∧ (∀ e, e ∈ (build_report ms prev now).top_movers_24h → ∃ m, m ∈ ms
          ∧ m.oneDayPriceChange.isSome = true ∧ e.base = simplify m
          ∧ e.price_change = round2 (qmul (orZero m.oneDayPriceChange) 100))
      ∧ ((ms.filter (fun m => m.oneDayPriceChange.isSome)).length ≤ 50 →
          ∀ m, m ∈ ms → m.oneDayPriceChange.isSome = true → m ∈ movers24hList ms)
      ∧ (movers24hList ms).Pairwise (fun a b =>
          qabs (orZero b.oneDayPriceChange) ≤ qabs (orZero a.oneDayPriceChange))) := by
  refine ⟨⟨?_, ?_, ?_, takeSorted _ 50 _⟩, ⟨?_, ?_, ?_, takeSorted _ 50 _⟩⟩
  · show (attachRanks mk1hEntry (movers1hList ms)).length = _
    rw [attachRanks_length, movers1hList, List.length_take, sortDescBy_length]
    rfl
  · intro e he
    rcases mem_attachRanksFrom _ _ _ _ he with ⟨a, ha, i, rfl⟩
    rcases List.mem_filter.mp (mem_of_mem_takeSort ha) with ⟨ham, hsome⟩
    exact ⟨a, ham, hsome, rfl, rfl⟩
  · intro hlen m hm hsome
    exact mem_takeSort_of_short hlen (List.mem_filter.mpr ⟨hm, hsome⟩)
  · show (attachRanks mk24hEntry (movers24hList ms)).length = _
    rw [attachRanks_length, movers24hList, List.length_take, sortDescBy_length]
    rfl
  · intro e he
    rcases mem_attachRanksFrom _ _ _ _ he with ⟨a, ha, i, rfl⟩
    rcases List.mem_filter.mp (mem_of_mem_takeSort ha) with ⟨ham, hsome⟩
    exact ⟨a, ham, hsome, rfl, rfl⟩
  · intro hlen m hm hsome
    exact mem_takeSort_of_short hlen (List.mem_filter.mpr ⟨hm, hsome⟩)

/-- C10, witness: a market whose 1-hour change is present and exactly 0
is a member of the 1-hour movers list, and the same market's daily
change of -0.05 puts it in the daily movers list. -/
theorem movers_from_change_fields_witness :
    (([mktMove].filter (fun m => m.oneHourPriceChange.isSome)).length ≤ 50)
    ∧ mktMove.oneHourPriceChange = some 0
    ∧ mktMove ∈ movers1hList [mktMove]
    ∧ mktMove ∈ movers24hList [mktMove] := by
  refine ⟨by decide, by decide, ?_, ?_⟩
  · exact (movers_from_change_fields [mktMove] emptySnapshot "t").1.2.2.1 (by decide)
      mktMove (by decide) (by decide)
  · exact (movers_from_change_fields [mktMove] emptySnapshot "t").2.2.2.1 (by decide)
      mktMove (by decide) (by decide)

end Tracker
